import Mathlib

/-
Verification of the arithmetic transform functions in src/example/a.c.

The C file defines, over 32-bit signed int arithmetic:

  int a_inline_static_func(int x) { if (x > 1000) return x; return x * x; }
  int a_func(int x)               { if (x > 1000) return x; return a_inline_static_func(x); }
  int a_static_func2(int x)       { x = a_func(x + x); return a_inline_static_func(x); }
  int main_func(int x)            { return a_func(x + x); }

together with a global struct `aa_` holding a function pointer initialised
to a_inline_static_func and never read or written by any of the functions.

We embed a C int as an integer in [-2^31, 2^31) and make every arithmetic
operation wrap modulo 2^32 (two's-complement semantics), via `wrap32`.
-/

namespace Kusanagi

/-- Two's-complement reduction of an integer into [-2^31, 2^31). -/
def wrap32 (n : Int) : Int := (n + 2 ^ 31) % 2 ^ 32 - 2 ^ 31

/-- Embedding of `a_inline_static_func` from src/example/a.c: threshold
guard, then 32-bit squaring. -/
def a_inline_static_func (x : Int) : Int :=
  if x > 1000 then x else wrap32 (x * x)

/-- Embedding of `a_func` from src/example/a.c: its own threshold guard,
then a call to `a_inline_static_func`. -/
def a_func (x : Int) : Int :=
  if x > 1000 then x else a_inline_static_func x

/-- Embedding of `a_static_func2` from src/example/a.c: doubles (32-bit
addition x + x), passes through `a_func`, then through
`a_inline_static_func`. -/
def a_static_func2 (x : Int) : Int :=
  a_inline_static_func (a_func (wrap32 (x + x)))

/-- Embedding of `main_func` from src/example/a.c: doubles (32-bit
addition x + x) and passes the result to `a_func`. -/
def main_func (x : Int) : Int :=
  a_func (wrap32 (x + x))

/-- Exact-arithmetic counterpart of `a_inline_static_func` (the ideal
mathematical value, no 32-bit wrapping). Used to state overflow claims. -/
def a_inline_static_func_exact (x : Int) : Int :=
  if x > 1000 then x else x * x

/-- Exact-arithmetic counterpart of `a_func`. -/
def a_func_exact (x : Int) : Int :=
  if x > 1000 then x else a_inline_static_func_exact x

/-- Exact-arithmetic counterpart of `a_static_func2`. -/
def a_static_func2_exact (x : Int) : Int :=
  a_inline_static_func_exact (a_func_exact (x + x))

/-- Exact-arithmetic counterpart of `main_func`. -/
def main_func_exact (x : Int) : Int :=
  a_func_exact (x + x)

/-- The struct AA of a.h: a single function-pointer field. -/
structure AA where
  func : Int → Int

/-- The global `aa_` of src/example/a.c, initialised to point at
`a_inline_static_func`. -/
def aa_ : AA := { func := a_inline_static_func }

/-- State-passing embedding of `a_inline_static_func`: the body never
reads or writes the global struct, so the state passes through unchanged. -/
def a_inline_static_funcS (s : AA) (x : Int) : Int × AA :=
  if x > 1000 then (x, s) else (wrap32 (x * x), s)

/-- State-passing embedding of `a_func`. -/
def a_funcS (s : AA) (x : Int) : Int × AA :=
  if x > 1000 then (x, s) else a_inline_static_funcS s x

/-- State-passing embedding of `a_static_func2`. -/
def a_static_func2S (s : AA) (x : Int) : Int × AA :=
  let r1 := a_funcS s (wrap32 (x + x))
  a_inline_static_funcS r1.2 r1.1

/-- State-passing embedding of `main_func`. -/
def main_funcS (s : AA) (x : Int) : Int × AA :=
  a_funcS s (wrap32 (x + x))

/- ## Helper lemmas -/

/-- wrap32 is the identity on representable values. -/
lemma wrap32_eq_self (n : Int) (h1 : -(2 ^ 31) ≤ n) (h2 : n < 2 ^ 31) :
    wrap32 n = n := by
  unfold wrap32
  have hlo : (0 : Int) ≤ n + 2 ^ 31 := by omega
  have hhi : n + 2 ^ 31 < 2 ^ 32 := by omega
  rw [Int.emod_eq_of_lt hlo hhi]
  omega

/-- The guard in a_func is redundant: it agrees with a_inline_static_func
everywhere. -/
lemma a_func_eq_inline (x : Int) : a_func x = a_inline_static_func x := by
  unfold a_func a_inline_static_func
  split <;> simp_all

/-- Squares of values in [0, 2000] are representable, so the 32-bit square
agrees with the exact square there. -/
lemma square_small (x : Int) (h0 : 0 ≤ x) (h1 : x ≤ 2000) :
    wrap32 (x * x) = x * x := by
  have hub : x * x ≤ 2000 * 2000 := mul_le_mul h1 h1 h0 (by omega)
  have hlb : 0 ≤ x * x := mul_nonneg h0 h0
  exact wrap32_eq_self _ (by omega) (by omega)

/-- The guard in a_func_exact is redundant as well. -/
lemma a_func_exact_eq_inline (x : Int) :
    a_func_exact x = a_inline_static_func_exact x := by
  unfold a_func_exact a_inline_static_func_exact
  split <;> simp_all

/-- For any nonnegative argument the 32-bit a_inline_static_func computes
the exact value: squaring only happens below the 1001 threshold, where the
square is representable. -/
lemma inline_exact_of_nonneg (x : Int) (h0 : 0 ≤ x) :
    a_inline_static_func x = a_inline_static_func_exact x := by
  unfold a_inline_static_func a_inline_static_func_exact
  split
  · rfl
  · rename_i hguard
    exact square_small x h0 (by omega)

/-- On [0, 1000] of the caller argument, main_func computes the exact
mathematical value: no overflow occurs. -/
lemma main_func_no_overflow (x : Int) (h0 : 0 ≤ x) (h1 : x ≤ 1000) :
    main_func x = main_func_exact x := by
  unfold main_func main_func_exact
  rw [wrap32_eq_self (x + x) (by omega) (by omega)]
  rw [a_func_eq_inline, a_func_exact_eq_inline]
  exact inline_exact_of_nonneg (x + x) (by omega)

/-- On [0, 1000] of the caller argument, a_static_func2 computes the exact
mathematical value: no overflow occurs. -/
lemma a_static_func2_no_overflow (x : Int) (h0 : 0 ≤ x) (h1 : x ≤ 1000) :
    a_static_func2 x = a_static_func2_exact x := by
  unfold a_static_func2 a_static_func2_exact
  rw [wrap32_eq_self (x + x) (by omega) (by omega)]
  rw [a_func_eq_inline, a_func_exact_eq_inline,
    inline_exact_of_nonneg (x + x) (by omega)]
  have hv0 : 0 ≤ a_inline_static_func_exact (x + x) := by
    unfold a_inline_static_func_exact
    split
    · omega
    · exact mul_nonneg (by omega) (by omega)
  exact inline_exact_of_nonneg _ hv0

/-- State-passing a_inline_static_func returns the pure result and leaves
the global untouched. -/
lemma a_inline_static_funcS_spec (s : AA) (x : Int) :
    a_inline_static_funcS s x = (a_inline_static_func x, s) := by
  unfold a_inline_static_funcS a_inline_static_func
  split <;> rfl

/-- State-passing a_func returns the pure result and leaves the global
untouched. -/
lemma a_funcS_spec (s : AA) (x : Int) :
    a_funcS s x = (a_func x, s) := by
  unfold a_funcS a_func
  split
  · rfl
  · exact a_inline_static_funcS_spec s x

/- ## Claim theorems -/

/-- Claim C1: for every integer x with x > 1000, the transform returns x
unchanged: a_func x = x and a_inline_static_func x = x. -/
theorem claim_C1 (x : Int) (h : x > 1000) :
    a_func x = x ∧ a_inline_static_func x = x := by
  unfold a_func a_inline_static_func
  rw [if_pos h, if_pos h]
  exact ⟨rfl, rfl⟩

/-- Witness for C1 at x = 2000. -/
theorem claim_C1_witness :
    a_func 2000 = 2000 ∧ a_inline_static_func 2000 = 2000 :=
  claim_C1 2000 (by decide)

/-- Claim C2: for every integer x in [0, 1000], the transform returns x
multiplied by itself: a_func x = x * x and a_inline_static_func x = x * x. -/
theorem claim_C2 (x : Int) (h0 : 0 ≤ x) (h1 : x ≤ 1000) :
    a_func x = x * x ∧ a_inline_static_func x = x * x := by
  have h : a_inline_static_func x = x * x := by
    unfold a_inline_static_func
    rw [if_neg (by omega)]
    exact square_small x h0 (by omega)
  exact ⟨by rw [a_func_eq_inline, h], h⟩

/-- Witness for C2 at x = 1000. -/
theorem claim_C2_witness :
    a_func 1000 = 1000 * 1000 ∧ a_inline_static_func 1000 = 1000 * 1000 :=
  claim_C2 1000 (by decide) (by decide)

/-- Counterexample to claim C3 as stated: invoked through the doubling
callers, input 2000 is not returned as 2000 (both callers return 4000). -/
theorem claim_C3_counterexample :
    ¬ (main_func 2000 = 2000 ∧ a_static_func2 2000 = 2000) := by
  decide

/-- Claim C3 (amended): for input 2000, the doubling callers first double
the input to 4000, which exceeds the 1000 threshold and is returned
unchanged: main_func 2000 = 4000 and a_static_func2 2000 = 4000. -/
theorem claim_C3 : main_func 2000 = 4000 ∧ a_static_func2 2000 = 4000 := by
  decide

/-- Claim C4: for input 5, the transform invoked through the doubling
caller first doubles 5 to 10 and then squares it: main_func 5 = 100. -/
theorem claim_C4 : main_func 5 = 100 := by
  decide

/-- Claim C5: the wrapper calls double the input (with 32-bit addition)
before passing it on: whenever the doubled value is representable,
main_func x = a_func (x + x) and
a_static_func2 x = a_inline_static_func (a_func (x + x)). -/
theorem claim_C5 (x : Int) (h1 : -(2 ^ 31) ≤ x + x) (h2 : x + x < 2 ^ 31) :
    main_func x = a_func (x + x) ∧
      a_static_func2 x = a_inline_static_func (a_func (x + x)) := by
  unfold main_func a_static_func2
  rw [wrap32_eq_self (x + x) h1 h2]
  exact ⟨rfl, rfl⟩

/-- Witness for C5 at x = 5. -/
theorem claim_C5_witness :
    main_func 5 = a_func (5 + 5) ∧
      a_static_func2 5 = a_inline_static_func (a_func (5 + 5)) :=
  claim_C5 5 (by decide) (by decide)

/-- Counterexample to claim C6 as stated: there is no x in [0, 1000] for
which the doubled-then-transformed computation overflows 32-bit
arithmetic; for every such x the computed result equals the exact
mathematical value through both callers. -/
theorem claim_C6_counterexample :
    ¬ ∃ x : Int, 0 ≤ x ∧ x ≤ 1000 ∧
      (main_func x ≠ main_func_exact x ∨
        a_static_func2 x ≠ a_static_func2_exact x) := by
  rintro ⟨x, h0, h1, h | h⟩
  · exact h (main_func_no_overflow x h0 h1)
  · exact h (a_static_func2_no_overflow x h0 h1)

/-- Claim C6 (amended): for every x in [0, 1000], the transform invoked
through the doubling callers does not overflow: the 32-bit computed result
equals the exact mathematical value (the doubled value is at most 2000 and
any square taken along the way is at most 4000000, well inside 32-bit
range). -/
theorem claim_C6 (x : Int) (h0 : 0 ≤ x) (h1 : x ≤ 1000) :
    main_func x = main_func_exact x ∧
      a_static_func2 x = a_static_func2_exact x :=
  ⟨main_func_no_overflow x h0 h1, a_static_func2_no_overflow x h0 h1⟩

/-- Witness for C6 at x = 1000. -/
theorem claim_C6_witness :
    main_func 1000 = main_func_exact 1000 ∧
      a_static_func2 1000 = a_static_func2_exact 1000 :=
  claim_C6 1000 (by decide) (by decide)

/-- Claim C7: the computation is stateless: aa_.func is
a_inline_static_func, no operation modifies the global state, and each
result depends only on the integer argument (it equals the pure value). -/
theorem claim_C7 :
    aa_.func = a_inline_static_func ∧
      ∀ (s : AA) (x : Int),
        (a_funcS s x).2 = s ∧ (a_static_func2S s x).2 = s ∧
          (main_funcS s x).2 = s ∧
          (a_funcS s x).1 = a_func x ∧
          (a_static_func2S s x).1 = a_static_func2 x ∧
          (main_funcS s x).1 = main_func x := by
  refine ⟨rfl, fun s x => ?_⟩
  have h2 : a_static_func2S s x = (a_static_func2 x, s) := by
    unfold a_static_func2S a_static_func2
    rw [a_funcS_spec, a_inline_static_funcS_spec]
  have hm : main_funcS s x = (main_func x, s) := by
    unfold main_funcS main_func
    rw [a_funcS_spec]
  rw [a_funcS_spec, h2, hm]
  exact ⟨rfl, rfl, rfl, rfl, rfl, rfl⟩

/-- Claim C8: a_func and a_inline_static_func are extensionally equal:
the x > 1000 guard in a_func is redundant with the identical guard inside
a_inline_static_func. -/
theorem claim_C8 (x : Int) : a_func x = a_inline_static_func x :=
  a_func_eq_inline x

/-- Claim C9: for every integer x with 501 ≤ x ≤ 1000, main_func merely
doubles: doubling pushes the argument past the 1000 threshold, so a_func
returns it unchanged, main_func x = 2 * x. -/
theorem claim_C9 (x : Int) (h0 : 501 ≤ x) (h1 : x ≤ 1000) :
    main_func x = 2 * x := by
  unfold main_func
  rw [wrap32_eq_self (x + x) (by omega) (by omega)]
  unfold a_func
  rw [if_pos (by omega)]
  omega

/-- Witness for C9 at x = 750. -/
theorem claim_C9_witness : main_func 750 = 2 * 750 :=
  claim_C9 750 (by decide) (by decide)

/-- Claim C10: for every integer x in [0, 15], a_static_func2 squares
twice: the inner result (2x)^2 is at most 900 ≤ 1000, so it is squared
again, giving 16 * x^4. -/
theorem claim_C10 (x : Int) (h0 : 0 ≤ x) (h1 : x ≤ 15) :
    a_static_func2 x = 16 * x ^ 4 := by
  have hsq : (x + x) * (x + x) ≤ 900 := by
    have := mul_le_mul (show x + x ≤ 30 by omega) (show x + x ≤ 30 by omega)
      (by omega) (show (0 : Int) ≤ 30 by omega)
    omega
  have hsq0 : 0 ≤ (x + x) * (x + x) := mul_nonneg (by omega) (by omega)
  have hinner : a_func (x + x) = (x + x) * (x + x) := by
    unfold a_func a_inline_static_func
    rw [if_neg (by omega), if_neg (by omega)]
    exact square_small (x + x) (by omega) (by omega)
  unfold a_static_func2
  rw [wrap32_eq_self (x + x) (by omega) (by omega), hinner]
  unfold a_inline_static_func
  rw [if_neg (by omega), square_small ((x + x) * (x + x)) hsq0 (by omega)]
  ring

/-- Witness for C10 at x = 15. -/
theorem claim_C10_witness : a_static_func2 15 = 16 * 15 ^ 4 :=
  claim_C10 15 (by decide) (by decide)

end Kusanagi
